import Mathlib

/-!
Shallow embedding of the email-validation pipeline in
`src/components/EmailValidator.tsx` (the `validateEmails` function).

The network-checking collaborators (`validators.validateEmailFormat`,
`validators.checkDomainExists`, `validators.checkMXRecords`, ...) are not part
of this file's source; the orchestrator treats them as injected boolean-valued
capabilities, so they are modelled as an abstract record `Checks` of functions.
Since the probes may be handed an undefined domain (JS `email.split('@')[1]`
is `undefined` when the address has no `@`), the probes take `Option String`.

The per-address orchestration also records a trace of the network-check
invocations it performs, so that "no further network calls" /
"invoked exactly once" properties can be stated.
-/

namespace EmailValidator

/-- The fixed result record (`ValidationResult` in `src/types`). -/
structure ValidationResult where
  email : String
  formatValid : Bool
  domainExists : Bool
  mxRecords : Bool
  spf : Bool
  dkim : Bool
  dmarc : Bool
  smtp : Bool
  blacklisted : Bool
deriving DecidableEq, Repr

/-- One network-check invocation, together with the domain argument it was
handed (`none` models the JS `undefined` domain of an address with no `@`). -/
inductive CheckCall where
  | domainExists (d : Option String)
  | mx (d : Option String)
  | spf (d : Option String)
  | dkim (d : Option String)
  | dmarc (d : Option String)
  | smtp (d : Option String)
  | blacklist (d : Option String)
deriving DecidableEq, Repr

/-- The domain argument an invocation was handed. -/
def CheckCall.domainArg : CheckCall → Option String
  | .domainExists d => d
  | .mx d => d
  | .spf d => d
  | .dkim d => d
  | .dmarc d => d
  | .smtp d => d
  | .blacklist d => d

/-- The injected capability record: the format checker plus the seven
network probes from `src/utils/validators` (external to this source file). -/
structure Checks where
  validateEmailFormat : String → Bool
  checkDomainExists : Option String → Bool
  checkMXRecords : Option String → Bool
  checkSPF : Option String → Bool
  checkDKIM : Option String → Bool
  checkDMARC : Option String → Bool
  checkSMTP : Option String → Bool
  checkBlacklists : Option String → Bool

/-- Model of JS `String.prototype.split` with a one-character separator,
on the character list: `"".split(s) = [""]`, separators delimit possibly
empty segments. -/
def splitChar (sep : Char) : List Char → List (List Char)
  | [] => [[]]
  | c :: rest =>
    if c = sep then [] :: splitChar sep rest
    else
      match splitChar sep rest with
      | [] => [[c]]
      | h :: t => (c :: h) :: t

/-- JS `s.split(sep)` as a list of strings. -/
def splitString (sep : Char) (s : String) : List String :=
  (splitChar sep s.data).map fun cs => ⟨cs⟩

/-- Model of JS `String.prototype.trim`: drop leading and trailing
whitespace characters. -/
def jsTrim (s : String) : String :=
  ⟨((s.data.dropWhile Char.isWhitespace).reverse.dropWhile Char.isWhitespace).reverse⟩

/-- The input filter `emails.split('\n').filter(email => email.trim())`: the
raw input line split, keeping (untrimmed) lines whose trimmed form is
non-empty. -/
def filteredLines (text : String) : List String :=
  (splitString '\n' text).filter fun email => jsTrim email ≠ ""

/-- The domain extraction `email.split('@')[1]` handed to every probe: the
segment between the first and the second `@`, `none` (JS `undefined`) when
the address has no `@`. -/
def extractDomain (email : String) : Option String :=
  ((splitChar '@' email.data).get? 1).map fun cs => ⟨cs⟩

/-- The per-address orchestration (one iteration of the `for` loop of
`validateEmails`): format check, short-circuit on domain existence, then the
six-probe fan-out joined by `Promise.all`.  Returns the assembled
`ValidationResult` together with the list of network-check invocations
performed. -/
def validateOne (v : Checks) (email : String) : ValidationResult × List CheckCall :=
  let domain := extractDomain email
  let formatValid := v.validateEmailFormat email
  if formatValid then
    let domainExists := v.checkDomainExists domain
    if !domainExists then
      -- domain doesn't exist: skip other checks, all services unavailable
      ({ email := email, formatValid := true, domainExists := false,
         mxRecords := false, spf := false, dkim := false, dmarc := false,
         smtp := false, blacklisted := false },
       [CheckCall.domainExists domain])
    else
      -- only proceed with other checks if domain exists (Promise.all fan-out)
      let mxRecords := v.checkMXRecords domain
      let spf := v.checkSPF domain
      let dkim := v.checkDKIM domain
      let dmarc := v.checkDMARC domain
      let smtp := v.checkSMTP domain
      let blacklisted := v.checkBlacklists domain
      ({ email := email, formatValid := formatValid, domainExists := domainExists,
         mxRecords := mxRecords, spf := spf, dkim := dkim, dmarc := dmarc,
         smtp := smtp, blacklisted := blacklisted },
       [CheckCall.domainExists domain, CheckCall.mx domain, CheckCall.spf domain,
        CheckCall.dkim domain, CheckCall.dmarc domain, CheckCall.smtp domain,
        CheckCall.blacklist domain])
  else
    ({ email := email, formatValid := formatValid, domainExists := false,
       mxRecords := false, spf := false, dkim := false, dmarc := false,
       smtp := false, blacklisted := false },
     [])

/-- The batch runner `validateEmails`: one result per kept input line, in
input order. -/
def validateEmails (v : Checks) (text : String) : List ValidationResult :=
  (filteredLines text).map fun email => (validateOne v email).1

/-! ### A scheduled model of the six-probe fan-out

`Promise.all` fires the six probes concurrently and joins positionally.  To
state that the assembled record is independent of the order in which the
probes complete, the fan-out is also modelled with an explicit completion
schedule: a list of probe indices in completion order, each completion
writing its boolean into its own slot; the join reads the six slots. -/

/-- The value each of the six concurrent probes produces
(0 = MX, 1 = SPF, 2 = DKIM, 3 = DMARC, 4 = SMTP, 5 = blacklist). -/
def probeValue (v : Checks) (domain : Option String) (i : Fin 6) : Bool :=
  if i = 0 then v.checkMXRecords domain
  else if i = 1 then v.checkSPF domain
  else if i = 2 then v.checkDKIM domain
  else if i = 3 then v.checkDMARC domain
  else if i = 4 then v.checkSMTP domain
  else v.checkBlacklists domain

/-- Run the fan-out under a completion schedule: each index in `order`
completes in turn and stores its probe's value in its slot; a slot never
written stays `none`. -/
def fanOutJoin (f : Fin 6 → Bool) (order : List (Fin 6)) : Fin 6 → Option Bool :=
  order.foldl (fun acc j => fun k => if k = j then some (f j) else acc k)
    (fun _ => none)

/-- The orchestrator with the fan-out executed under completion schedule
`order`; `none` when some probe never completed (an incomplete join, which
`Promise.all` never delivers). -/
def validateOneSched (v : Checks) (order : List (Fin 6)) (email : String) :
    Option ValidationResult :=
  let domain := extractDomain email
  let formatValid := v.validateEmailFormat email
  if formatValid then
    let domainExists := v.checkDomainExists domain
    if !domainExists then
      some { email := email, formatValid := true, domainExists := false,
             mxRecords := false, spf := false, dkim := false, dmarc := false,
             smtp := false, blacklisted := false }
    else
      let slots := fanOutJoin (probeValue v domain) order
      match slots 0, slots 1, slots 2, slots 3, slots 4, slots 5 with
      | some mx, some sp, some dk, some dm, some sm, some bl =>
        some { email := email, formatValid := formatValid,
               domainExists := domainExists, mxRecords := mx, spf := sp,
               dkim := dk, dmarc := dm, smtp := sm, blacklisted := bl }
      | _, _, _, _, _, _ => none
  else
    some { email := email, formatValid := formatValid, domainExists := false,
           mxRecords := false, spf := false, dkim := false, dmarc := false,
           smtp := false, blacklisted := false }

/-! ### The spec's wording of domain extraction

For comparison with the code's `email.split('@')[1]`, the spec's phrase
"the substring after the first `@`" is formalised separately. -/

/-- Everything after the first occurrence of `sep`, `none` when absent. -/
def afterFirst (sep : Char) : List Char → Option (List Char)
  | [] => none
  | c :: rest => if c = sep then some rest else afterFirst sep rest

/-- Spec wording: "Extract domain as the substring after the first `@`
(if no `@`, domain is empty/undefined)". -/
def specDomainAfterFirstAt (email : String) : Option String :=
  (afterFirst '@' email.data).map fun cs => ⟨cs⟩

/-! ### Concrete check doubles used by witnesses and counterexamples -/

/-- A deterministic double whose every check passes. -/
def allTrueChecks : Checks where
  validateEmailFormat := fun _ => true
  checkDomainExists := fun _ => true
  checkMXRecords := fun _ => true
  checkSPF := fun _ => true
  checkDKIM := fun _ => true
  checkDMARC := fun _ => true
  checkSMTP := fun _ => true
  checkBlacklists := fun _ => true

/-- A double whose format checker rejects everything. -/
def rejectFormatChecks : Checks where
  validateEmailFormat := fun _ => false
  checkDomainExists := fun _ => true
  checkMXRecords := fun _ => true
  checkSPF := fun _ => true
  checkDKIM := fun _ => true
  checkDMARC := fun _ => true
  checkSMTP := fun _ => true
  checkBlacklists := fun _ => true

/-- A double accepting every format whose domain-existence probe fails. -/
def noDomainChecks : Checks where
  validateEmailFormat := fun _ => true
  checkDomainExists := fun _ => false
  checkMXRecords := fun _ => true
  checkSPF := fun _ => true
  checkDKIM := fun _ => true
  checkDMARC := fun _ => true
  checkSMTP := fun _ => true
  checkBlacklists := fun _ => true

/-- A fixed complete completion schedule for witnesses. -/
def schedOrder : List (Fin 6) := [0, 1, 2, 3, 4, 5]

/-! ### Helper lemmas -/

/-- Every branch of the orchestrator records the input address verbatim. -/
theorem validateOne_email (v : Checks) (email : String) :
    (validateOne v email).1.email = email := by
  unfold validateOne
  dsimp only
  split <;> [skip; rfl]
  split <;> rfl

/-- Every branch of the orchestrator records the format checker's verdict on
the verbatim input address. -/
theorem validateOne_formatValid (v : Checks) (email : String) :
    (validateOne v email).1.formatValid = v.validateEmailFormat email := by
  unfold validateOne
  dsimp only
  split
  case isTrue h =>
    split
    · simp [h]
    · rfl
  case isFalse h => rfl

/-- `splitChar` starts with the segment before the first separator. -/
theorem splitChar_head (sep : Char) :
    ∀ cs : List Char, ∃ t, splitChar sep cs = cs.takeWhile (fun c => c ≠ sep) :: t := by
  intro cs
  induction cs with
  | nil => exact ⟨[], rfl⟩
  | cons c rest ih =>
    by_cases hc : c = sep
    · refine ⟨splitChar sep rest, ?_⟩
      simp [splitChar, hc, List.takeWhile]
    · obtain ⟨t, ht⟩ := ih
      refine ⟨t, ?_⟩
      simp [splitChar, hc, ht, List.takeWhile]

/-- The second segment of `splitChar` is the part after the first separator,
truncated at the next separator. -/
theorem splitChar_get1 (sep : Char) :
    ∀ cs : List Char,
      (splitChar sep cs).get? 1
        = (afterFirst sep cs).map (List.takeWhile (fun c => c ≠ sep)) := by
  intro cs
  induction cs with
  | nil => rfl
  | cons c rest ih =>
    by_cases hc : c = sep
    · obtain ⟨t, ht⟩ := splitChar_head sep rest
      simp [splitChar, afterFirst, hc, ht]
    · obtain ⟨h, t, hsplit⟩ :
          ∃ h t, splitChar sep rest = h :: t := by
        obtain ⟨t, ht⟩ := splitChar_head sep rest
        exact ⟨_, t, ht⟩
      simp only [splitChar, if_neg hc, hsplit]
      simp only [hsplit] at ih
      simpa [afterFirst, hc] using ih

/-- With no separator present, `splitChar` yields the single whole segment. -/
theorem splitChar_of_not_mem (sep : Char) :
    ∀ cs : List Char, sep ∉ cs → splitChar sep cs = [cs] := by
  intro cs
  induction cs with
  | nil => intro _; rfl
  | cons c rest ih =>
    intro hmem
    have hc : c ≠ sep := fun h => hmem (h ▸ List.mem_cons_self c rest)
    have hrest : sep ∉ rest := fun h => hmem (List.mem_cons_of_mem c h)
    simp [splitChar, hc, ih hrest]

/-- Dropping the prefix up to the first separator removes exactly one
occurrence of it. -/
theorem afterFirst_count (sep : Char) :
    ∀ cs r : List Char, afterFirst sep cs = some r →
      cs.count sep = r.count sep + 1 := by
  intro cs
  induction cs with
  | nil => intro r h; simp [afterFirst] at h
  | cons c rest ih =>
    intro r h
    by_cases hc : c = sep
    · simp only [afterFirst, if_pos hc, Option.some.injEq] at h
      subst h
      simp [hc, List.count_cons]
    · simp only [afterFirst, if_neg hc] at h
      have := ih r h
      simp [List.count_cons, hc, this]

/-- A complete schedule fills every slot with its probe's value. -/
theorem fanOutJoin_eq (f : Fin 6 → Bool) (order : List (Fin 6))
    (h : ∀ i : Fin 6, i ∈ order) :
    fanOutJoin f order = fun i => some (f i) := by
  have aux : ∀ (o : List (Fin 6)) (acc : Fin 6 → Option Bool) (i : Fin 6),
      (i ∈ o ∨ acc i = some (f i)) →
      o.foldl (fun a j => fun k => if k = j then some (f j) else a k) acc i
        = some (f i) := by
    intro o
    induction o with
    | nil =>
      intro acc i hi
      rcases hi with hi | hi
      · simp at hi
      · simpa using hi
    | cons j rest ih =>
      intro acc i hi
      apply ih
      by_cases hij : i = j
      · right; simp [hij]
      · rcases hi with hi | hi
        · rcases List.mem_cons.mp hi with h1 | h1
          · exact absurd h1 hij
          · exact Or.inl h1
        · right; simpa [hij] using hi
  funext i
  exact aux order _ i (Or.inl (h i))

/-! ### Claims -/

/-- C3: an address rejected by the format checker yields a result with
`formatValid = false` and every other boolean field `false`, and no
network-check operation is invoked for that address. -/
theorem claim_c3 (v : Checks) (email : String)
    (hf : v.validateEmailFormat email = false) :
    (validateOne v email).1
        = { email := email, formatValid := false, domainExists := false,
            mxRecords := false, spf := false, dkim := false, dmarc := false,
            smtp := false, blacklisted := false } ∧
    (validateOne v email).2 = [] := by
  unfold validateOne
  simp [hf]

/-- Witness for C3 at a concrete rejected address. -/
theorem claim_c3_witness :
    (validateOne rejectFormatChecks "bad-address").1
        = { email := "bad-address", formatValid := false, domainExists := false,
            mxRecords := false, spf := false, dkim := false, dmarc := false,
            smtp := false, blacklisted := false } ∧
    (validateOne rejectFormatChecks "bad-address").2 = [] :=
  claim_c3 rejectFormatChecks "bad-address" rfl

/-- C2: an address passing the format check whose domain-existence probe
fails yields `formatValid = true, domainExists = false`, the six remaining
fields `false`, and the only network call is the domain-existence probe — in
particular no MX/SPF/DKIM/DMARC/SMTP/blacklist probe is invoked. -/
theorem claim_c2 (v : Checks) (email : String)
    (hf : v.validateEmailFormat email = true)
    (hd : v.checkDomainExists (extractDomain email) = false) :
    (validateOne v email).1
        = { email := email, formatValid := true, domainExists := false,
            mxRecords := false, spf := false, dkim := false, dmarc := false,
            smtp := false, blacklisted := false } ∧
    (validateOne v email).2 = [CheckCall.domainExists (extractDomain email)] ∧
    (∀ d, CheckCall.mx d ∉ (validateOne v email).2) ∧
    (∀ d, CheckCall.spf d ∉ (validateOne v email).2) ∧
    (∀ d, CheckCall.dkim d ∉ (validateOne v email).2) ∧
    (∀ d, CheckCall.dmarc d ∉ (validateOne v email).2) ∧
    (∀ d, CheckCall.smtp d ∉ (validateOne v email).2) ∧
    (∀ d, CheckCall.blacklist d ∉ (validateOne v email).2) := by
  unfold validateOne
  simp [hf, hd]

/-- Witness for C2 at a concrete address whose domain probe fails. -/
theorem claim_c2_witness :
    (validateOne noDomainChecks "user@nonexistent-domain-xyz.test").1
        = { email := "user@nonexistent-domain-xyz.test", formatValid := true,
            domainExists := false, mxRecords := false, spf := false,
            dkim := false, dmarc := false, smtp := false, blacklisted := false } ∧
    (validateOne noDomainChecks "user@nonexistent-domain-xyz.test").2
        = [CheckCall.domainExists
            (extractDomain "user@nonexistent-domain-xyz.test")] ∧
    (∀ d, CheckCall.mx d ∉ (validateOne noDomainChecks "user@nonexistent-domain-xyz.test").2) ∧
    (∀ d, CheckCall.spf d ∉ (validateOne noDomainChecks "user@nonexistent-domain-xyz.test").2) ∧
    (∀ d, CheckCall.dkim d ∉ (validateOne noDomainChecks "user@nonexistent-domain-xyz.test").2) ∧
    (∀ d, CheckCall.dmarc d ∉ (validateOne noDomainChecks "user@nonexistent-domain-xyz.test").2) ∧
    (∀ d, CheckCall.smtp d ∉ (validateOne noDomainChecks "user@nonexistent-domain-xyz.test").2) ∧
    (∀ d, CheckCall.blacklist d ∉ (validateOne noDomainChecks "user@nonexistent-domain-xyz.test").2) :=
  claim_c2 noDomainChecks "user@nonexistent-domain-xyz.test" rfl rfl

/-- C4: every result the batch ever produces satisfies the invariant — if
`formatValid = false` or `domainExists = false`, all six subsequent check
fields are `false`, whatever the injected checks do. -/
theorem claim_c4 (v : Checks) (text : String) (r : ValidationResult)
    (hr : r ∈ validateEmails v text)
    (hcond : r.formatValid = false ∨ r.domainExists = false) :
    r.mxRecords = false ∧ r.spf = false ∧ r.dkim = false ∧
    r.dmarc = false ∧ r.smtp = false ∧ r.blacklisted = false := by
  obtain ⟨e, -, he⟩ := List.mem_map.mp hr
  subst he
  by_cases hf : v.validateEmailFormat e = true
  · by_cases hd : v.checkDomainExists (extractDomain e) = true
    · exfalso
      unfold validateOne at hcond
      simp [hf, hd] at hcond
    · have hd' : v.checkDomainExists (extractDomain e) = false :=
        Bool.not_eq_true _ ▸ eq_false_of_ne_true hd
      unfold validateOne
      simp [hf, hd']
  · have hf' : v.validateEmailFormat e = false :=
      eq_false_of_ne_true hf
    unfold validateOne
    simp [hf']

/-- Witness for C4 on a concrete batch containing a short-circuited result. -/
theorem claim_c4_witness :
    ((validateOne noDomainChecks "a@b.c").1.mxRecords = false ∧
     (validateOne noDomainChecks "a@b.c").1.spf = false ∧
     (validateOne noDomainChecks "a@b.c").1.dkim = false ∧
     (validateOne noDomainChecks "a@b.c").1.dmarc = false ∧
     (validateOne noDomainChecks "a@b.c").1.smtp = false ∧
     (validateOne noDomainChecks "a@b.c").1.blacklisted = false) :=
  claim_c4 noDomainChecks "a@b.c" (validateOne noDomainChecks "a@b.c").1
    (by decide) (by decide)

/-- C5: the batch output has exactly one result per non-blank input line, in
the same relative order, the i-th result recording the i-th kept line in its
`email` field. -/
theorem claim_c5 (v : Checks) (text : String) :
    (validateEmails v text).length = (filteredLines text).length ∧
    (validateEmails v text).map (fun r => r.email) = filteredLines text := by
  refine ⟨by simp [validateEmails], ?_⟩
  unfold validateEmails
  rw [List.map_map]
  have hcomp : ((fun r => r.email) ∘ fun email => (validateOne v email).1)
      = fun email => email := by
    funext e
    exact validateOne_email v e
  rw [hcomp, List.map_id']

/-- C7 as stated is false: the full path performs seven network
invocations (one domain-existence probe plus six concurrent probes), not at
most six. -/
theorem claim_c7_counterexample :
    ((validateOne allTrueChecks "a@b.c").2).length = 7 ∧
    ¬ ((validateOne allTrueChecks "a@b.c").2).length ≤ 6 := by
  decide

/-- C7 amended: every single-address validation performs zero, one, or seven
network-check invocations (one domain-existence probe plus six concurrent
probes); never more than seven. -/
theorem claim_c7_amended (v : Checks) (email : String) :
    (((validateOne v email).2).length = 0 ∨
     ((validateOne v email).2).length = 1 ∨
     ((validateOne v email).2).length = 7) ∧
    ((validateOne v email).2).length ≤ 7 := by
  unfold validateOne
  dsimp only
  split
  · split
    · exact ⟨Or.inr (Or.inl rfl), by simp⟩
    · exact ⟨Or.inr (Or.inr rfl), by simp⟩
  · exact ⟨Or.inl rfl, by simp⟩

/-- C1: for an address passing the format check whose domain exists, each of
the six remaining probes (MX, SPF, DKIM, DMARC, SMTP, blacklist) is invoked
exactly once with that domain, the result's six fields equal the probes'
boolean outcomes, and the assembled record is the same under every complete
completion schedule of the concurrent fan-out. -/
theorem claim_c1 (v : Checks) (email : String) (order : List (Fin 6))
    (hf : v.validateEmailFormat email = true)
    (hd : v.checkDomainExists (extractDomain email) = true)
    (horder : ∀ i : Fin 6, i ∈ order) :
    ((validateOne v email).2).count (CheckCall.mx (extractDomain email)) = 1 ∧
    ((validateOne v email).2).count (CheckCall.spf (extractDomain email)) = 1 ∧
    ((validateOne v email).2).count (CheckCall.dkim (extractDomain email)) = 1 ∧
    ((validateOne v email).2).count (CheckCall.dmarc (extractDomain email)) = 1 ∧
    ((validateOne v email).2).count (CheckCall.smtp (extractDomain email)) = 1 ∧
    ((validateOne v email).2).count (CheckCall.blacklist (extractDomain email)) = 1 ∧
    (validateOne v email).1.mxRecords = v.checkMXRecords (extractDomain email) ∧
    (validateOne v email).1.spf = v.checkSPF (extractDomain email) ∧
    (validateOne v email).1.dkim = v.checkDKIM (extractDomain email) ∧
    (validateOne v email).1.dmarc = v.checkDMARC (extractDomain email) ∧
    (validateOne v email).1.smtp = v.checkSMTP (extractDomain email) ∧
    (validateOne v email).1.blacklisted = v.checkBlacklists (extractDomain email) ∧
    validateOneSched v order email = some (validateOne v email).1 := by
  have hjoin := fanOutJoin_eq (probeValue v (extractDomain email)) order horder
  unfold validateOne validateOneSched
  simp [hf, hd, hjoin, probeValue, List.count_cons]

/-- Witness for C1 at a concrete address, all-pass checks and a concrete
complete schedule. -/
theorem claim_c1_witness :
    ((validateOne allTrueChecks "a@b.c").2).count
        (CheckCall.mx (extractDomain "a@b.c")) = 1 ∧
    validateOneSched allTrueChecks schedOrder "a@b.c"
        = some (validateOne allTrueChecks "a@b.c").1 := by
  have h := claim_c1 allTrueChecks "a@b.c" schedOrder rfl rfl (by decide)
  exact ⟨h.1, h.2.2.2.2.2.2.2.2.2.2.2.2⟩

/-- C6 as stated is false: for an address with two `@`s that the (injected)
format checker accepts, the domain handed to the domain-existence probe is
the segment between the first and second `@`, not the substring after the
first `@`. -/
theorem claim_c6_counterexample :
    CheckCall.domainExists (some "b") ∈ (validateOne allTrueChecks "a@b@c").2 ∧
    specDomainAfterFirstAt "a@b@c" = some "b@c" ∧
    (some "b" : Option String) ≠ some "b@c" := by
  decide

/-- C6 amended: the domain handed to the checks is the part of the address
after the first `@` truncated at the next `@` (JS `split('@')[1]`); when the
address contains at most one `@` — in particular for every address a
standard format grammar accepts — this coincides with the spec's "substring
after the first `@`" (and is undefined when there is no `@`). -/
theorem claim_c6_amended (email : String) :
    extractDomain email
        = (afterFirst '@' email.data).map
            (fun cs => (⟨cs.takeWhile (fun c => c ≠ '@')⟩ : String)) ∧
    (email.data.count '@' ≤ 1 →
      extractDomain email = specDomainAfterFirstAt email) := by
  constructor
  · unfold extractDomain
    rw [splitChar_get1]
    cases afterFirst '@' email.data <;> rfl
  · intro hcount
    unfold extractDomain specDomainAfterFirstAt
    rw [splitChar_get1]
    cases h : afterFirst '@' email.data with
    | none => rfl
    | some r =>
      have hc := afterFirst_count '@' email.data r h
      have hzero : r.count '@' = 0 := by omega
      have hnotmem : '@' ∉ r := by
        rwa [← List.count_eq_zero]
      have htw : List.takeWhile (fun c => !decide (c = '@')) r = r := by
        rw [List.takeWhile_eq_self_iff]
        intro a ha
        have hne : a ≠ '@' := fun hq => hnotmem (hq ▸ ha)
        simp [hne]
      simp [htw]

/-- Witness for C6's amended claim at an address with one `@`. -/
theorem claim_c6_witness :
    extractDomain "user@example.com" = specDomainAfterFirstAt "user@example.com" :=
  (claim_c6_amended "user@example.com").2 (by decide)

/-- C8: the batch is a deterministic function of the input text and the
injected checks — two runs on identical text against stable
(pointwise-identical) check doubles yield identical result sequences. -/
theorem claim_c8 (v₁ v₂ : Checks) (text : String)
    (h₁ : ∀ s, v₁.validateEmailFormat s = v₂.validateEmailFormat s)
    (h₂ : ∀ d, v₁.checkDomainExists d = v₂.checkDomainExists d)
    (h₃ : ∀ d, v₁.checkMXRecords d = v₂.checkMXRecords d)
    (h₄ : ∀ d, v₁.checkSPF d = v₂.checkSPF d)
    (h₅ : ∀ d, v₁.checkDKIM d = v₂.checkDKIM d)
    (h₆ : ∀ d, v₁.checkDMARC d = v₂.checkDMARC d)
    (h₇ : ∀ d, v₁.checkSMTP d = v₂.checkSMTP d)
    (h₈ : ∀ d, v₁.checkBlacklists d = v₂.checkBlacklists d) :
    validateEmails v₁ text = validateEmails v₂ text := by
  have hv : v₁ = v₂ := by
    have e₁ := funext h₁
    have e₂ := funext h₂
    have e₃ := funext h₃
    have e₄ := funext h₄
    have e₅ := funext h₅
    have e₆ := funext h₆
    have e₇ := funext h₇
    have e₈ := funext h₈
    cases v₁
    cases v₂
    simp_all
  rw [hv]

/-- Witness for C8: re-running with the same stable double is idempotent. -/
theorem claim_c8_witness :
    validateEmails allTrueChecks "a@b.c\nbad" = validateEmails allTrueChecks "a@b.c\nbad" := by
  apply claim_c8 allTrueChecks allTrueChecks "a@b.c\nbad" <;> intro x <;> rfl

/-- C9: the pipeline never guards domain extraction — when the injected
format checker accepts an address containing no `@`, the domain-existence
probe is invoked with the undefined (`none`) domain. -/
theorem claim_c9 (v : Checks) (email : String)
    (hf : v.validateEmailFormat email = true)
    (hno : '@' ∉ email.data) :
    CheckCall.domainExists none ∈ (validateOne v email).2 := by
  have hd : extractDomain email = none := by
    unfold extractDomain
    rw [splitChar_of_not_mem '@' email.data hno]
    rfl
  unfold validateOne
  by_cases h : v.checkDomainExists (extractDomain email) = true <;>
    simp [hf, h, hd] at * <;> simp [hf, hd, h]

/-- Witness for C9: an `@`-free address accepted by a permissive format
checker reaches the domain probe with `none`. -/
theorem claim_c9_witness :
    CheckCall.domainExists none ∈ (validateOne noDomainChecks "nodomain").2 :=
  claim_c9 noDomainChecks "nodomain" rfl (by decide)

/-- C10: kept lines are never trimmed — every line surviving the blank
filter appears verbatim among the raw newline-split lines, its result
records it verbatim (whitespace included) in `email`, the format checker is
applied to the untrimmed line, and domain extraction works on the untrimmed
line too: every probe invoked for the line is handed the domain extracted
from the whitespace-intact line, and whenever the format checker accepts the
line the domain-existence probe really receives that untrimmed extraction. -/
theorem claim_c10 (v : Checks) (text l : String)
    (hmem : l ∈ filteredLines text) :
    l ∈ splitString '\n' text ∧
    (∃ r, r ∈ validateEmails v text ∧ r.email = l ∧
      r.formatValid = v.validateEmailFormat l) ∧
    (∀ c ∈ (validateOne v l).2, c.domainArg = extractDomain l) ∧
    (v.validateEmailFormat l = true →
      CheckCall.domainExists (extractDomain l) ∈ (validateOne v l).2) := by
  refine ⟨(List.mem_filter.mp hmem).1,
    ⟨(validateOne v l).1, List.mem_map.mpr ⟨l, hmem, rfl⟩,
      validateOne_email v l, validateOne_formatValid v l⟩, ?_, ?_⟩
  · intro c hc
    by_cases hf : v.validateEmailFormat l = true
    · by_cases hd : v.checkDomainExists (extractDomain l) = true
      · unfold validateOne at hc
        simp [hf, hd] at hc
        rcases hc with h | h | h | h | h | h | h <;> subst h <;> rfl
      · have hd' : v.checkDomainExists (extractDomain l) = false :=
          eq_false_of_ne_true hd
        unfold validateOne at hc
        simp [hf, hd'] at hc
        subst hc
        rfl
    · have hf' : v.validateEmailFormat l = false := eq_false_of_ne_true hf
      unfold validateOne at hc
      simp [hf'] at hc
  · intro hf
    unfold validateOne
    by_cases hd : v.checkDomainExists (extractDomain l) = true <;> simp [hf, hd]

/-- Witness for C10 at a line with leading and trailing whitespace: the
domain probe receives the extraction of the untrimmed line, whose trailing
space is kept. -/
theorem claim_c10_witness :
    " user@example.com " ∈ splitString '\n' " user@example.com \nsecond" ∧
    extractDomain " user@example.com " = some "example.com " ∧
    CheckCall.domainExists (extractDomain " user@example.com ")
        ∈ (validateOne allTrueChecks " user@example.com ").2 := by
  have h := claim_c10 allTrueChecks " user@example.com \nsecond"
    " user@example.com " (by decide)
  exact ⟨h.1, by decide, h.2.2.2 rfl⟩

end EmailValidator
